import Mathlib

/-
Verification development for the bulk list manager
(src/bulk_list_manager: manager.py, rate_limiter.py, utils.py).

The embedding models wall-clock time as a natural number of seconds, the
remote client as an oracle mapping a user id to the classified outcome of
each remote call, and the checkpoint file as an optional JSON value.  Remote
calls and sleeps are recorded in an event trace so that ordering claims can
be stated.  Loops whose termination depends on wall-clock progress
(the wait-for-quota polling loops) take a fuel parameter and return none
when it runs out.
-/

set_option linter.unusedVariables false

namespace BulkListManager

/-- JSON values: the serialization format of the checkpoint file written by
utils.save_state and read by utils.load_state via the json module. -/
inductive Json where
  | null : Json
  | bool : Bool → Json
  | num : Nat → Json
  | str : String → Json
  | arr : List Json → Json
  | obj : List (String × Json) → Json

/-- Dictionary lookup on a JSON object: Python dict get(key). -/
def jget : Json → String → Option Json
  | Json.obj kvs, k => (kvs.find? (fun kv => kv.1 == k)).map (fun kv => kv.2)
  | _, _ => none

/-- Python truthiness of a JSON value (the manager only ever tests a dict,
where nonempty means truthy). -/
def jsonTruthy : Json → Bool
  | Json.null => false
  | Json.bool b => b
  | Json.num n => !(n == 0)
  | Json.str s => !(s == "")
  | Json.arr xs => !xs.isEmpty
  | Json.obj kvs => !kvs.isEmpty

/-- The RateLimit dataclass of rate_limiter.py. -/
structure RateLimit where
  limit : Nat
  window : Nat
  current : Nat
  reset_time : Nat
deriving DecidableEq

/-- RateLimiter.check_limit: if the window has passed, reset it
(count back to zero, reset one window from now), then report whether the
operation is under its limit.  The Python method mutates the record in
place; here the updated record is returned alongside the decision. -/
def check_limit (rl : RateLimit) (now : Nat) : Bool × RateLimit :=
  if rl.reset_time ≤ now then
    let rl2 : RateLimit := { rl with current := 0, reset_time := now + rl.window }
    (decide (rl2.current < rl2.limit), rl2)
  else
    (decide (rl.current < rl.limit), rl)

/-- RateLimiter.increment for a registered operation. -/
def increment (rl : RateLimit) : RateLimit := { rl with current := rl.current + 1 }

/-- RateLimiter.time_until_reset for a registered operation. -/
def time_until_reset (rl : RateLimit) (now : Nat) : Nat :=
  if rl.reset_time ≤ now then 0 else rl.reset_time - now

/-- The two operations registered in RateLimiter.__init__. -/
structure RateLimiter where
  unfollow : RateLimit
  get_user_following : RateLimit
deriving DecidableEq

/-- RateLimiter.__init__: unfollow 187 per 900 s, get_user_following 500
per 900 s, counts zero, windows expired. -/
def RateLimiter.init : RateLimiter :=
  { unfollow := { limit := 187, window := 900, current := 0, reset_time := 0 },
    get_user_following := { limit := 500, window := 900, current := 0, reset_time := 0 } }

/-- Names of the registered rate-limited operations. -/
inductive RLOp where
  | unfollow
  | get_user_following
deriving DecidableEq

def RateLimiter.get : RateLimiter → RLOp → RateLimit
  | rl, RLOp.unfollow => rl.unfollow
  | rl, RLOp.get_user_following => rl.get_user_following

def RateLimiter.set : RateLimiter → RLOp → RateLimit → RateLimiter
  | rl, RLOp.unfollow, v => { rl with unfollow := v }
  | rl, RLOp.get_user_following, v => { rl with get_user_following := v }

/-- The stats dict initialized in TwitterListManager.__init__. -/
structure Stats where
  total : Nat
  processed : Nat
  added_to_list : Nat
  unfollowed : Nat
  failed : Nat
  time_to_next : Nat
  mode : Option String
deriving DecidableEq

def Stats.init : Stats :=
  { total := 0, processed := 0, added_to_list := 0, unfollowed := 0,
    failed := 0, time_to_next := 0, mode := none }

/-- The mutable state of a TwitterListManager instance. -/
structure Manager where
  rate_limiter : RateLimiter
  processed_users : Finset String
  is_paused : Bool
  should_stop : Bool
  stats : Stats
deriving DecidableEq

/-- TwitterListManager.__init__. -/
def Manager.init : Manager :=
  { rate_limiter := RateLimiter.init, processed_users := ∅,
    is_paused := false, should_stop := false, stats := Stats.init }

/-- JSON encoding of an optional string (None encodes as null). -/
def encodeOptStr : Option String → Json
  | none => Json.null
  | some s => Json.str s

/-- JSON encoding of the stats dict. -/
def Stats.toJson (st : Stats) : Json :=
  Json.obj [("total", Json.num st.total), ("processed", Json.num st.processed),
    ("added_to_list", Json.num st.added_to_list), ("unfollowed", Json.num st.unfollowed),
    ("failed", Json.num st.failed), ("time_to_next", Json.num st.time_to_next),
    ("mode", encodeOptStr st.mode)]

def jnat : Option Json → Option Nat
  | some (Json.num n) => some n
  | _ => none

def jmode : Option Json → Option (Option String)
  | some Json.null => some none
  | some (Json.str s) => some (some s)
  | _ => none

/-- Reading the stats dict back out of its JSON form. -/
def Stats.fromJson (j : Json) : Option Stats := do
  let t ← jnat (jget j "total")
  let p ← jnat (jget j "processed")
  let a ← jnat (jget j "added_to_list")
  let uf ← jnat (jget j "unfollowed")
  let f ← jnat (jget j "failed")
  let tn ← jnat (jget j "time_to_next")
  let md ← jmode (jget j "mode")
  pure { total := t, processed := p, added_to_list := a, unfollowed := uf,
         failed := f, time_to_next := tn, mode := md }

/-- Python truthiness of an optional string (None and the empty string are
falsy). -/
def optStrTruthy : Option String → Bool
  | none => false
  | some s => !(s == "")

/-- The list built by list(self.processed_users): the set in some order
(sorted, as a canonical representative of the unspecified iteration order). -/
def processedList (s : Finset String) : List String := s.sort (fun a b => a ≤ b)

/-- The state dict built by TwitterListManager.save_progress: processed_users
as a list, the stats dict, a timestamp, the mode, and list_id only when a
truthy list_id was passed. -/
def stateJson (m : Manager) (ts : Nat) (list_id : Option String) : Json :=
  Json.obj
    ([("processed_users", Json.arr ((processedList m.processed_users).map Json.str)),
      ("stats", m.stats.toJson),
      ("timestamp", Json.num ts),
      ("mode", encodeOptStr m.stats.mode)]
     ++ (if optStrTruthy list_id then [("list_id", Json.str (list_id.getD ""))] else []))

/-- The strings in a JSON array, as read back by set(saved.get(key, [])). -/
def jStrList : Option Json → List String
  | some (Json.arr xs) =>
      xs.filterMap (fun j => match j with | Json.str s => some s | _ => none)
  | _ => []

/-- The comparison saved_state.get("mode") == mode of process_following. -/
def modeMatches (saved : Json) (mode : String) : Bool :=
  match jget saved "mode" with
  | some (Json.str s) => s == mode
  | _ => false

/-- Lines 108 to 118 of manager.py (start of process_following): set the
mode in stats, load any saved progress, and when the saved mode matches the
requested mode seed processed_users and stats from it, forcing the mode
field afterwards. -/
def load_and_seed (mode : String) (m : Manager) (store : Option Json) : Manager :=
  let m1 : Manager := { m with stats := { m.stats with mode := some mode } }
  let saved : Json := store.getD (Json.obj [])
  if jsonTruthy saved && modeMatches saved mode then
    let processed : Finset String := (jStrList (jget saved "processed_users")).toFinset
    let st : Stats :=
      match jget saved "stats" with
      | some js => (Stats.fromJson js).getD m1.stats
      | none => m1.stats
    { m1 with processed_users := processed, stats := { st with mode := some mode } }
  else m1

/-- A remote entity: str(getattr(user, "id", None)) is its identifier. -/
structure User where
  id : Option String
deriving DecidableEq

/-- str(getattr(user, "id", None)): Python prints a missing id as the
string None. -/
def uidOf (u : User) : String := u.id.getD "None"

/-- One response of client.get_user_following: the entities and the
continuation token. -/
structure Page where
  users : List User
  next_cursor : Option String
deriving DecidableEq

/-- Classified outcome of a remote mutating call, mirroring the twikit
error classes caught in manager.py. -/
inductive CallResult where
  | ok
  | badRequest
  | forbidden
  | notFound
  | userNotFound
  | userUnavailable
  | tooManyRequests
  | serverError
  | otherError
deriving DecidableEq

/-- The remote side: outcome of add_list_member and unfollow_user per
user id. -/
structure Oracle where
  addResult : String → CallResult
  unfollowResult : String → CallResult

/-- Observable actions of a run: remote calls, sleeps and checkpoint
writes, in order. -/
inductive Event where
  | userIdCall : Event
  | fetch : Event
  | addCall : Option String → String → Event
  | unfollowCall : String → Event
  | sleep : Nat → Event
  | save : Event
deriving DecidableEq

/-- Full machine state: manager object, wall clock, checkpoint file, and
the event trace so far. -/
structure Sys where
  mgr : Manager
  now : Nat
  store : Option Json
  trace : List Event

def sysInit : Sys := { mgr := Manager.init, now := 0, store := none, trace := [] }

/-- asyncio.sleep: advance the clock and record the suspension. -/
def sleepS (n : Nat) (s : Sys) : Sys :=
  { s with now := s.now + n, trace := s.trace ++ [Event.sleep n] }

def pushEvent (e : Event) (s : Sys) : Sys := { s with trace := s.trace ++ [e] }

def modStats (f : Stats → Stats) (s : Sys) : Sys :=
  { s with mgr := { s.mgr with stats := f s.mgr.stats } }

def setRL (op : RLOp) (v : RateLimit) (s : Sys) : Sys :=
  { s with mgr := { s.mgr with rate_limiter := s.mgr.rate_limiter.set op v } }

/-- The polling loop while not check_limit(op): update time_to_next and
sleep 60 s until admitted.  Fuel bounds the number of polls; none means it
ran out. -/
def waitQuota (op : RLOp) : Nat → Sys → Option Sys
  | 0, _ => none
  | fuel+1, s =>
    let res := check_limit (s.mgr.rate_limiter.get op) s.now
    let s1 := setRL op res.2 s
    if res.1 then some s1
    else
      let s2 := modStats
        (fun st => { st with
          time_to_next := time_until_reset (s1.mgr.rate_limiter.get op) s1.now }) s1
      waitQuota op fuel (sleepS 60 s2)

/-- manager._add_to_list: cooldown, remote call, then count a success or a
failure.  Every exception is caught inside the method, so it never raises
to the caller. -/
def add_to_list (oracle : Oracle) (uid : String) (list_id : Option String) (s : Sys) : Sys :=
  let s1 := pushEvent (Event.addCall list_id uid) (sleepS 2 s)
  match oracle.addResult uid with
  | CallResult.ok =>
      modStats (fun st => { st with added_to_list := st.added_to_list + 1 }) s1
  | _ => modStats (fun st => { st with failed := st.failed + 1 }) s1

/-- manager._unfollow_user: wait for quota, issue the remote call; on
success record the call in the limiter and count it.  A non-ok outcome
raises, returned here as the second component. -/
def unfollow_user (oracle : Oracle) (fuel : Nat) (uid : String) (s : Sys) :
    Option (Sys × Option CallResult) :=
  match waitQuota RLOp.unfollow fuel s with
  | none => none
  | some s1 =>
    let s2 := pushEvent (Event.unfollowCall uid) s1
    match oracle.unfollowResult uid with
    | CallResult.ok =>
        let s3 := setRL RLOp.unfollow (increment (s2.mgr.rate_limiter.get RLOp.unfollow)) s2
        some (modStats (fun st => { st with unfollowed := st.unfollowed + 1 }) s3, none)
    | e => some (s2, some e)

/-- The success tail of the per-user try block: add the id to
processed_users and count it as processed. -/
def markProcessed (uid : String) (s : Sys) : Sys :=
  let s1 : Sys := { s with mgr := { s.mgr with processed_users := insert uid s.mgr.processed_users } }
  modStats (fun st => { st with processed := st.processed + 1 }) s1

/-- The body of the per-user loop of manager._process_batch: the try block
(skip falsy ids, add phase, cooldown, unfollow phase, mark processed) and
its except clauses (domain or unexpected error counts a failure,
TooManyRequests sleeps 900 s; either way the loop moves on). -/
def process_item (oracle : Oracle) (fuel : Nat) (list_id : Option String) (mode : String)
    (u : User) (s : Sys) : Option Sys :=
  let uid := uidOf u
  if uid == "" then some s
  else
    let s1 := if mode == "add_to_list" || mode == "both" then add_to_list oracle uid list_id s else s
    if mode == "unfollow" || mode == "both" then
      let s2 := if mode == "both" then sleepS 2 s1 else s1
      match unfollow_user oracle fuel uid s2 with
      | none => none
      | some (s3, none) => some (markProcessed uid s3)
      | some (s3, some e) =>
          if e = CallResult.tooManyRequests then some (sleepS 900 s3)
          else some (modStats (fun st => { st with failed := st.failed + 1 }) s3)
    else some (markProcessed uid s1)

/-- manager._process_batch: process the users in order, returning early
when stop or pause is observed before an item. -/
def process_batch (oracle : Oracle) (fuel : Nat) (list_id : Option String) (mode : String) :
    List User → Sys → Option Sys
  | [], s => some s
  | u :: rest, s =>
    if s.mgr.should_stop || s.mgr.is_paused then some s
    else
      match process_item oracle fuel list_id mode u s with
      | none => none
      | some s1 => process_batch oracle fuel list_id mode rest s1

/-- Python truthiness of the continuation token (if not cursor). -/
def cursorTruthy : Option String → Bool
  | none => false
  | some s => !(s == "")

/-- The new_users filter of process_following: drop entities whose id is
already in processed_users. -/
def pageNewUsers (p : Page) (processed : Finset String) : List User :=
  p.users.filter (fun u => !(decide (uidOf u ∈ processed)))

/-- manager.save_progress: overwrite the checkpoint file with the state
dict (list_id key only when a truthy list_id is passed). -/
def save_progress (list_id : Option String) (s : Sys) : Sys :=
  { s with store := some (stateJson s.mgr s.now list_id),
           trace := s.trace ++ [Event.save] }

/-- The while True fetch loop of process_following (lines 125 to 168 of
manager.py): check stop, wait for fetch quota, fetch a page (the remote is
modeled as a fixed sequence of pages consumed in order; an exhausted
sequence is an empty response), break on an empty response, filter fresh
users, record the fetch in the limiter, break when the continuation token
is falsy, update total, process the batch, save progress, continue. -/
def fetch_loop (oracle : Oracle) (fuel : Nat) (list_id : Option String) (mode : String) :
    List Page → Nat → Sys → Option Sys
  | pages, followingCount, s =>
    if s.mgr.should_stop then some s
    else
      match waitQuota RLOp.get_user_following fuel s with
      | none => none
      | some s1 =>
        let s2 := pushEvent Event.fetch s1
        match pages with
        | [] => some s2
        | p :: rest =>
          if p.users.isEmpty then some s2
          else
            let newUsers := pageNewUsers p s2.mgr.processed_users
            let fc := followingCount + newUsers.length
            let s3 := setRL RLOp.get_user_following
                        (increment (s2.mgr.rate_limiter.get RLOp.get_user_following)) s2
            if cursorTruthy p.next_cursor then
              let s4 := modStats
                (fun st => { st with total := fc + s3.mgr.processed_users.card }) s3
              match process_batch oracle fuel list_id mode newUsers s4 with
              | none => none
              | some s5 => fetch_loop oracle fuel list_id mode rest fc (save_progress list_id s5)
            else some s3

/-- The ValueError raises of process_following, lines 101 to 106. -/
inductive ConfigError where
  | invalidMode
  | listIdRequired
deriving DecidableEq

/-- manager.process_following: validate the mode and the list_id
requirement (raising before any other work), seed from the checkpoint,
fetch the authenticated user id, then run the fetch loop. -/
def process_following (oracle : Oracle) (fuel : Nat) (pages : List Page)
    (list_id : Option String) (mode : String) (s : Sys) :
    Option (Sys × Option ConfigError) :=
  if !(mode == "add_to_list" || mode == "unfollow" || mode == "both") then
    some (s, some ConfigError.invalidMode)
  else if (mode == "add_to_list" || mode == "both") && !(optStrTruthy list_id) then
    some (s, some ConfigError.listIdRequired)
  else
    let s1 : Sys := { s with mgr := load_and_seed mode s.mgr s.store }
    let s2 := pushEvent Event.userIdCall s1
    (fetch_loop oracle fuel list_id mode pages 0 s2).map (fun s3 => (s3, none))

/-- manager.stop: set the stop flag and save progress, with no list_id. -/
def stop (s : Sys) : Sys :=
  save_progress none { s with mgr := { s.mgr with should_stop := true } }

/-- manager.pause: set the pause flag and save progress, with no list_id. -/
def pause (s : Sys) : Sys :=
  save_progress none { s with mgr := { s.mgr with is_paused := true } }

/-! ## Helper lemmas -/

/-- Traces made only of sleep events (quota polling). -/
def onlySleeps (t : List Event) : Prop := ∀ e ∈ t, ∃ n, e = Event.sleep n

theorem onlySleeps_nil : onlySleeps [] := by intro e he; cases he

theorem onlySleeps_append {t1 t2 : List Event} (h1 : onlySleeps t1) (h2 : onlySleeps t2) :
    onlySleeps (t1 ++ t2) := by
  intro e he
  rcases List.mem_append.mp he with h | h
  · exact h1 e h
  · exact h2 e h

/-- The user id an event is about, when any. -/
def eventUid : Event → Option String
  | Event.addCall _ u => some u
  | Event.unfollowCall u => some u
  | _ => none

/-- Waiting for quota only touches the rate limiter, the time_to_next
statistic, the clock and the trace (appending sleeps). -/
theorem waitQuota_some (op : RLOp) (fuel : Nat) :
    ∀ s s' : Sys, waitQuota op fuel s = some s' →
      s'.mgr.processed_users = s.mgr.processed_users
    ∧ s'.mgr.should_stop = s.mgr.should_stop
    ∧ s'.mgr.is_paused = s.mgr.is_paused
    ∧ s'.mgr.stats.processed = s.mgr.stats.processed
    ∧ s'.mgr.stats.failed = s.mgr.stats.failed
    ∧ s'.mgr.stats.added_to_list = s.mgr.stats.added_to_list
    ∧ s'.mgr.stats.unfollowed = s.mgr.stats.unfollowed
    ∧ s'.mgr.stats.total = s.mgr.stats.total
    ∧ s'.mgr.stats.mode = s.mgr.stats.mode
    ∧ s'.store = s.store
    ∧ ∃ t, s'.trace = s.trace ++ t ∧ onlySleeps t := by
  induction fuel with
  | zero => intro s s' h; simp [waitQuota] at h
  | succ n ih =>
    intro s s' h
    rw [waitQuota] at h
    split at h
    · cases h
      refine ⟨rfl, rfl, rfl, rfl, rfl, rfl, rfl, rfl, rfl, rfl, [], ?_, onlySleeps_nil⟩
      simp [setRL]
    · obtain ⟨hp, hss, hip, hpr, hf, ha, hu, ht, hm, hst, t, htr, hsl⟩ := ih _ _ h
      refine ⟨?_, ?_, ?_, ?_, ?_, ?_, ?_, ?_, ?_, ?_, Event.sleep 60 :: t, ?_, ?_⟩
      · rw [hp]; simp [sleepS, modStats, setRL]
      · rw [hss]; simp [sleepS, modStats, setRL]
      · rw [hip]; simp [sleepS, modStats, setRL]
      · rw [hpr]; simp [sleepS, modStats, setRL]
      · rw [hf]; simp [sleepS, modStats, setRL]
      · rw [ha]; simp [sleepS, modStats, setRL]
      · rw [hu]; simp [sleepS, modStats, setRL]
      · rw [ht]; simp [sleepS, modStats, setRL]
      · rw [hm]; simp [sleepS, modStats, setRL]
      · rw [hst]; simp [sleepS, modStats, setRL]
      · rw [htr]; simp [sleepS, modStats, setRL]
      · intro e he
        rcases List.mem_cons.mp he with h60 | hmem
        · exact ⟨60, h60⟩
        · exact hsl e hmem

/-- Effect of one _add_to_list call: a cooldown then the remote call are
traced, the success or failure counter moves, nothing else changes. -/
theorem add_to_list_spec (oracle : Oracle) (uid : String) (lid : Option String) (s : Sys) :
      (add_to_list oracle uid lid s).mgr.processed_users = s.mgr.processed_users
    ∧ (add_to_list oracle uid lid s).mgr.should_stop = s.mgr.should_stop
    ∧ (add_to_list oracle uid lid s).mgr.is_paused = s.mgr.is_paused
    ∧ (add_to_list oracle uid lid s).store = s.store
    ∧ (add_to_list oracle uid lid s).trace
        = s.trace ++ [Event.sleep 2, Event.addCall lid uid]
    ∧ (add_to_list oracle uid lid s).mgr.stats.processed = s.mgr.stats.processed
    ∧ (add_to_list oracle uid lid s).mgr.stats.unfollowed = s.mgr.stats.unfollowed
    ∧ (add_to_list oracle uid lid s).mgr.stats.total = s.mgr.stats.total
    ∧ (add_to_list oracle uid lid s).mgr.stats.mode = s.mgr.stats.mode
    ∧ (add_to_list oracle uid lid s).mgr.stats.added_to_list
        = s.mgr.stats.added_to_list + (if oracle.addResult uid = CallResult.ok then 1 else 0)
    ∧ (add_to_list oracle uid lid s).mgr.stats.failed
        = s.mgr.stats.failed + (if oracle.addResult uid = CallResult.ok then 0 else 1) := by
  unfold add_to_list
  cases hr : oracle.addResult uid <;>
    simp [hr, pushEvent, sleepS, modStats]

/-- Effect of one _unfollow_user call: quota polling sleeps then the remote
call are traced; on success the unfollowed counter moves and no error is
returned; otherwise the classified error is returned (raised). -/
theorem unfollow_user_some (oracle : Oracle) (fuel : Nat) (uid : String) (s s' : Sys)
    (e? : Option CallResult) (h : unfollow_user oracle fuel uid s = some (s', e?)) :
      s'.mgr.processed_users = s.mgr.processed_users
    ∧ s'.mgr.should_stop = s.mgr.should_stop
    ∧ s'.mgr.is_paused = s.mgr.is_paused
    ∧ s'.mgr.stats.processed = s.mgr.stats.processed
    ∧ s'.mgr.stats.failed = s.mgr.stats.failed
    ∧ s'.mgr.stats.added_to_list = s.mgr.stats.added_to_list
    ∧ s'.mgr.stats.total = s.mgr.stats.total
    ∧ s'.mgr.stats.mode = s.mgr.stats.mode
    ∧ s'.store = s.store
    ∧ (∃ t, s'.trace = s.trace ++ t ++ [Event.unfollowCall uid] ∧ onlySleeps t)
    ∧ e? = (if oracle.unfollowResult uid = CallResult.ok then none
            else some (oracle.unfollowResult uid))
    ∧ s'.mgr.stats.unfollowed
        = s.mgr.stats.unfollowed
          + (if oracle.unfollowResult uid = CallResult.ok then 1 else 0) := by
  unfold unfollow_user at h
  cases hw : waitQuota RLOp.unfollow fuel s with
  | none => rw [hw] at h; simp at h
  | some s1 =>
    rw [hw] at h
    obtain ⟨hp, hss, hip, hpr, hf, ha, hu, ht, hm, hst, t, htr, hsl⟩ :=
      waitQuota_some _ _ _ _ hw
    cases hr : oracle.unfollowResult uid <;>
      simp only [hr] at h <;>
      simp only [Option.some.injEq, Prod.mk.injEq] at h <;>
      obtain ⟨h1, h2⟩ := h <;>
      subst h1 <;> subst h2 <;>
      refine ⟨?_, ?_, ?_, ?_, ?_, ?_, ?_, ?_, ?_, ⟨t, ?_, hsl⟩, ?_, ?_⟩ <;>
      simp [pushEvent, setRL, modStats, hp, hss, hip, hpr, hf, ha, hu, ht, hm, hst, htr, hr]

/-- A computation step from s to s2 that can only grow processed_users and
whose new remote-call events are all about ids in uids. -/
def spansToIn (uids : List String) (s s2 : Sys) : Prop :=
  s.mgr.processed_users ⊆ s2.mgr.processed_users
  ∧ s2.mgr.should_stop = s.mgr.should_stop
  ∧ s2.mgr.is_paused = s.mgr.is_paused
  ∧ ∃ t, s2.trace = s.trace ++ t ∧ ∀ e ∈ t, ∀ y, eventUid e = some y → y ∈ uids

theorem spansToIn_refl (uids : List String) (s : Sys) : spansToIn uids s s := by
  refine ⟨Finset.Subset.refl _, rfl, rfl, [], by simp, ?_⟩
  intro e he; cases he

theorem spansToIn_trans {uids : List String} {s s1 s2 : Sys}
    (h1 : spansToIn uids s s1) (h2 : spansToIn uids s1 s2) : spansToIn uids s s2 := by
  obtain ⟨hp1, hs1, hi1, t1, ht1, he1⟩ := h1
  obtain ⟨hp2, hs2, hi2, t2, ht2, he2⟩ := h2
  refine ⟨Finset.Subset.trans hp1 hp2, hs2.trans hs1, hi2.trans hi1, t1 ++ t2, ?_, ?_⟩
  · rw [ht2, ht1, List.append_assoc]
  · intro e he
    rcases List.mem_append.mp he with h | h
    · exact he1 e h
    · exact he2 e h

theorem spansToIn_mono {uids uids2 : List String} {s s2 : Sys}
    (hsub : ∀ y ∈ uids, y ∈ uids2) (h : spansToIn uids s s2) : spansToIn uids2 s s2 := by
  obtain ⟨hp, hs, hi, t, ht, he⟩ := h
  exact ⟨hp, hs, hi, t, ht, fun e hem y hy => hsub y (he e hem y hy)⟩

theorem spansToIn_sleepS (uids : List String) (n : Nat) (s : Sys) :
    spansToIn uids s (sleepS n s) := by
  refine ⟨Finset.Subset.refl _, rfl, rfl, [Event.sleep n], by simp [sleepS], ?_⟩
  intro e he y hy
  simp at he; subst he; simp [eventUid] at hy

theorem spansToIn_pushSilent (uids : List String) (e : Event) (s : Sys)
    (hq : eventUid e = none) : spansToIn uids s (pushEvent e s) := by
  refine ⟨Finset.Subset.refl _, rfl, rfl, [e], by simp [pushEvent], ?_⟩
  intro e2 he2 y hy
  simp at he2; subst he2; rw [hq] at hy; cases hy

theorem spansToIn_modStats (uids : List String) (f : Stats → Stats) (s : Sys) :
    spansToIn uids s (modStats f s) := by
  refine ⟨Finset.Subset.refl _, rfl, rfl, [], by simp [modStats], ?_⟩
  intro e he; cases he

theorem spansToIn_setRL (uids : List String) (op : RLOp) (v : RateLimit) (s : Sys) :
    spansToIn uids s (setRL op v s) := by
  refine ⟨Finset.Subset.refl _, rfl, rfl, [], by simp [setRL], ?_⟩
  intro e he; cases he

theorem spansToIn_markProcessed (uids : List String) (uid : String) (s : Sys) :
    spansToIn uids s (markProcessed uid s) := by
  refine ⟨?_, rfl, rfl, [], by simp [markProcessed, modStats], ?_⟩
  · intro y hy; simp [markProcessed, modStats]; exact Or.inr hy
  · intro e he; cases he

theorem spansToIn_add_to_list (uids : List String) (oracle : Oracle) (uid : String)
    (lid : Option String) (s : Sys) (hu : uid ∈ uids) :
    spansToIn uids s (add_to_list oracle uid lid s) := by
  obtain ⟨hp, hss, hip, hst, htr, _⟩ := add_to_list_spec oracle uid lid s
  refine ⟨by rw [hp], hss, hip, [Event.sleep 2, Event.addCall lid uid], htr, ?_⟩
  intro e he y hy
  rcases List.mem_cons.mp he with h | h
  · subst h; simp [eventUid] at hy
  · simp at h; subst h; simp [eventUid] at hy; subst hy; exact hu

theorem spansToIn_waitQuota {op : RLOp} {fuel : Nat} {s s2 : Sys}
    (uids : List String) (h : waitQuota op fuel s = some s2) : spansToIn uids s s2 := by
  obtain ⟨hp, hss, hip, _, _, _, _, _, _, _, t, htr, hsl⟩ := waitQuota_some _ _ _ _ h
  refine ⟨by rw [hp], hss, hip, t, htr, ?_⟩
  intro e he y hy
  obtain ⟨n, hn⟩ := hsl e he
  subst hn; simp [eventUid] at hy

theorem spansToIn_unfollow_user {oracle : Oracle} {fuel : Nat} {uid : String}
    {s s2 : Sys} {e? : Option CallResult} (uids : List String)
    (h : unfollow_user oracle fuel uid s = some (s2, e?)) (hu : uid ∈ uids) :
    spansToIn uids s s2 := by
  obtain ⟨hp, hss, hip, _, _, _, _, _, _, ⟨t, htr, hsl⟩, _, _⟩ :=
    unfollow_user_some _ _ _ _ _ _ h
  refine ⟨by rw [hp], hss, hip, t ++ [Event.unfollowCall uid], by rw [htr, List.append_assoc], ?_⟩
  intro e he y hy
  rcases List.mem_append.mp he with hh | hh
  · obtain ⟨n, hn⟩ := hsl e hh; subst hn; simp [eventUid] at hy
  · simp at hh; subst hh; simp [eventUid] at hy; subst hy; exact hu

theorem spansToIn_save_progress (uids : List String) (lid : Option String) (s : Sys) :
    spansToIn uids s (save_progress lid s) := by
  refine ⟨Finset.Subset.refl _, rfl, rfl, [Event.save], by simp [save_progress], ?_⟩
  intro e he y hy
  simp at he; subst he; simp [eventUid] at hy

/-- One item of _process_batch only grows processed_users and only emits
remote calls about that item. -/
theorem process_item_span (oracle : Oracle) (fuel : Nat) (lid : Option String)
    (mode : String) (u : User) (s s2 : Sys)
    (h : process_item oracle fuel lid mode u s = some s2) :
    spansToIn [uidOf u] s s2 := by
  unfold process_item at h
  by_cases h0 : (uidOf u == "") = true
  · rw [if_pos h0] at h
    cases h; exact spansToIn_refl _ _
  · rw [if_neg h0] at h
    set s1 := if (mode == "add_to_list" || mode == "both") = true
      then add_to_list oracle (uidOf u) lid s else s with hs1
    have hspan1 : spansToIn [uidOf u] s s1 := by
      rw [hs1]; split
      · exact spansToIn_add_to_list _ _ _ _ _ (by simp)
      · exact spansToIn_refl _ _
    by_cases h2 : (mode == "unfollow" || mode == "both") = true
    · rw [if_pos h2] at h
      simp only [] at h
      set s3 := if (mode == "both") = true then sleepS 2 s1 else s1 with hs3
      have hspan3 : spansToIn [uidOf u] s s3 := by
        rw [hs3]; split
        · exact spansToIn_trans hspan1 (spansToIn_sleepS _ _ _)
        · exact hspan1
      cases hu : unfollow_user oracle fuel (uidOf u) s3 with
      | none => rw [hu] at h; simp at h
      | some r =>
        obtain ⟨s4, e?⟩ := r
        rw [hu] at h
        have hspan4 : spansToIn [uidOf u] s s4 :=
          spansToIn_trans hspan3 (spansToIn_unfollow_user _ hu (by simp))
        cases e? with
        | none =>
          simp only [Option.some.injEq] at h
          cases h
          exact spansToIn_trans hspan4 (spansToIn_markProcessed _ _ _)
        | some e =>
          simp only at h
          split at h <;> simp only [Option.some.injEq] at h <;> cases h
          · exact spansToIn_trans hspan4 (spansToIn_sleepS _ _ _)
          · exact spansToIn_trans hspan4 (spansToIn_modStats _ _ _)
    · rw [if_neg h2] at h
      simp only [Option.some.injEq] at h
      cases h
      exact spansToIn_trans hspan1 (spansToIn_markProcessed _ _ _)

/-- _process_batch only grows processed_users and only emits remote calls
about ids of the users handed to it. -/
theorem process_batch_span (oracle : Oracle) (fuel : Nat) (lid : Option String)
    (mode : String) : ∀ (users : List User) (s s2 : Sys),
    process_batch oracle fuel lid mode users s = some s2 →
    spansToIn (users.map uidOf) s s2 := by
  intro users
  induction users with
  | nil => intro s s2 h; cases h; exact spansToIn_refl _ _
  | cons u rest ih =>
    intro s s2 h
    rw [process_batch] at h
    split at h
    · cases h; exact spansToIn_refl _ _
    · cases hi : process_item oracle fuel lid mode u s with
      | none => rw [hi] at h; simp at h
      | some s1 =>
        rw [hi] at h
        have h1 : spansToIn (List.map uidOf (u :: rest)) s s1 :=
          spansToIn_mono
            (by intro y hy
                simp only [List.mem_singleton] at hy
                subst hy
                exact List.mem_map_of_mem uidOf (List.mem_cons_self u rest))
            (process_item_span _ _ _ _ _ _ _ hi)
        have h2 : spansToIn (List.map uidOf (u :: rest)) s1 s2 :=
          spansToIn_mono
            (by intro y hy
                rw [List.map_cons]
                exact List.mem_cons_of_mem _ hy)
            (ih _ _ h)
        exact spansToIn_trans h1 h2

/-- A step whose remote calls avoid x keeps x processed and adds no add or
unfollow call about x to the trace. -/
theorem spansToIn_no_recall {uids : List String} {x : String} {s s2 : Sys}
    (h : spansToIn uids s s2) (hx : x ∉ uids) (hmem : x ∈ s.mgr.processed_users) :
    x ∈ s2.mgr.processed_users
    ∧ ∃ t, s2.trace = s.trace ++ t
        ∧ (∀ l2, Event.addCall l2 x ∉ t) ∧ Event.unfollowCall x ∉ t := by
  obtain ⟨hp, _, _, t, ht, he⟩ := h
  refine ⟨hp hmem, t, ht, ?_, ?_⟩
  · intro l2 hc
    exact hx (he _ hc x rfl)
  · intro hc
    exact hx (he _ hc x rfl)

/-- An id already in processed_users is filtered out of every page. -/
theorem not_mem_pageNewUsers_uids (p : Page) (processed : Finset String) (x : String)
    (hx : x ∈ processed) : x ∉ (pageNewUsers p processed).map uidOf := by
  intro hmem
  rw [List.mem_map] at hmem
  obtain ⟨u, hu, huid⟩ := hmem
  rw [pageNewUsers, List.mem_filter] at hu
  have h2 := hu.2
  rw [huid] at h2
  simp [hx] at h2

/-- Through the whole fetch loop, an id already in processed_users stays
there and is never the subject of another add or unfollow call. -/
theorem fetch_loop_no_recall (oracle : Oracle) (fuel : Nat) (lid : Option String)
    (mode : String) (x : String) :
    ∀ (pages : List Page) (fc : Nat) (s sf : Sys),
    x ∈ s.mgr.processed_users →
    fetch_loop oracle fuel lid mode pages fc s = some sf →
    x ∈ sf.mgr.processed_users
    ∧ ∃ t, sf.trace = s.trace ++ t
        ∧ (∀ l2, Event.addCall l2 x ∉ t) ∧ Event.unfollowCall x ∉ t := by
  intro pages
  induction pages with
  | nil =>
    intro fc s sf hx h
    rw [fetch_loop] at h
    split at h
    · cases h; exact ⟨hx, [], by simp, by simp, by simp⟩
    · cases hw : waitQuota RLOp.get_user_following fuel s with
      | none => rw [hw] at h; simp at h
      | some s1 =>
        rw [hw] at h
        dsimp only [] at h
        cases h
        have hspan : spansToIn [] s (pushEvent Event.fetch s1) :=
          spansToIn_trans (spansToIn_waitQuota _ hw)
            (spansToIn_pushSilent _ _ _ rfl)
        exact spansToIn_no_recall hspan (by simp) hx
  | cons p rest ih =>
    intro fc s sf hx h
    rw [fetch_loop] at h
    split at h
    · cases h; exact ⟨hx, [], by simp, by simp, by simp⟩
    · cases hw : waitQuota RLOp.get_user_following fuel s with
      | none => rw [hw] at h; simp at h
      | some s1 =>
        rw [hw] at h
        dsimp only [] at h
        have hspan1 : spansToIn [] s (pushEvent Event.fetch s1) :=
          spansToIn_trans (spansToIn_waitQuota _ hw)
            (spansToIn_pushSilent _ _ _ rfl)
        split at h
        · cases h
          exact spansToIn_no_recall hspan1 (by simp) hx
        · have hx1 : x ∈ (pushEvent Event.fetch s1).mgr.processed_users := by
            obtain ⟨hp, _, _, _, _, _⟩ := hspan1
            exact hp hx
          set sFetch := pushEvent Event.fetch s1 with hsFetch
          set newUsers := pageNewUsers p sFetch.mgr.processed_users with hNew
          have hxN : x ∉ newUsers.map uidOf :=
            not_mem_pageNewUsers_uids p sFetch.mgr.processed_users x hx1
          set s3 := setRL RLOp.get_user_following
            (increment (sFetch.mgr.rate_limiter.get RLOp.get_user_following)) sFetch with hs3
          have hspan3 : spansToIn (newUsers.map uidOf) s s3 := by
            refine spansToIn_trans (spansToIn_mono ?_ hspan1) (spansToIn_setRL _ _ _ _)
            intro y hy; cases hy
          split at h
          · cases hb : process_batch oracle fuel lid mode newUsers
                (modStats (fun st =>
                  { st with total := fc + newUsers.length + s3.mgr.processed_users.card }) s3) with
            | none => rw [hb] at h; simp at h
            | some s5 =>
              rw [hb] at h
              have hspan5 : spansToIn (newUsers.map uidOf) s (save_progress lid s5) := by
                refine spansToIn_trans hspan3 (spansToIn_trans (spansToIn_modStats _ _ _)
                  (spansToIn_trans (process_batch_span _ _ _ _ _ _ _ hb)
                    (spansToIn_save_progress _ _ _)))
              obtain ⟨hx5, t1, ht1, ha1, hu1⟩ := spansToIn_no_recall hspan5 hxN hx
              obtain ⟨hxf, t2, ht2, ha2, hu2⟩ := ih _ _ _ hx5 h
              refine ⟨hxf, t1 ++ t2, ?_, ?_, ?_⟩
              · rw [ht2, ht1, List.append_assoc]
              · intro l2 hc
                rcases List.mem_append.mp hc with hc | hc
                · exact ha1 l2 hc
                · exact ha2 l2 hc
              · intro hc
                rcases List.mem_append.mp hc with hc | hc
                · exact hu1 hc
                · exact hu2 hc
          · simp only [Option.some.injEq] at h
            subst h
            exact spansToIn_no_recall hspan3 hxN hx

/-! ## Checkpoint round-trip lemmas -/

theorem jStrList_roundtrip (xs : List String) :
    jStrList (some (Json.arr (xs.map Json.str))) = xs := by
  induction xs with
  | nil => rfl
  | cons a l ih =>
    simp only [jStrList, List.map_cons, List.filterMap_cons] at ih ⊢
    rw [ih]

theorem processedList_toFinset (s : Finset String) : (processedList s).toFinset = s :=
  Finset.sort_toFinset _ _

theorem Stats.fromJson_toJson (st : Stats) : Stats.fromJson st.toJson = some st := by
  cases st with
  | mk t p a uf f tn md => cases md <;> rfl

theorem jget_stateJson_processed (m : Manager) (ts : Nat) (lid : Option String) :
    jget (stateJson m ts lid) "processed_users"
      = some (Json.arr ((processedList m.processed_users).map Json.str)) := rfl

theorem jget_stateJson_stats (m : Manager) (ts : Nat) (lid : Option String) :
    jget (stateJson m ts lid) "stats" = some m.stats.toJson := rfl

theorem jget_stateJson_mode (m : Manager) (ts : Nat) (lid : Option String) :
    jget (stateJson m ts lid) "mode" = some (encodeOptStr m.stats.mode) := rfl

theorem jsonTruthy_stateJson (m : Manager) (ts : Nat) (lid : Option String) :
    jsonTruthy (stateJson m ts lid) = true := rfl

/-- Loading the checkpoint written for a manager whose saved mode matches
the requested mode seeds processed_users and stats from it. -/
theorem load_and_seed_match (mode : String) (m mc : Manager) (ts : Nat)
    (lid : Option String) (hmode : mc.stats.mode = some mode) :
    load_and_seed mode m (some (stateJson mc ts lid))
      = { m with processed_users := mc.processed_users,
                 stats := { mc.stats with mode := some mode } } := by
  have hmm : modeMatches (stateJson mc ts lid) mode = true := by
    unfold modeMatches
    rw [jget_stateJson_mode, hmode]
    simp [encodeOptStr]
  simp only [load_and_seed, Option.getD_some, jsonTruthy_stateJson, hmm,
    Bool.and_self, if_true, jget_stateJson_processed, jget_stateJson_stats,
    jStrList_roundtrip, processedList_toFinset, Stats.fromJson_toJson]

/-- Loading a checkpoint whose saved mode does not match behaves exactly
like having no checkpoint at all: nothing is merged. -/
theorem load_and_seed_mismatch (mode : String) (m mc : Manager) (ts : Nat)
    (lid : Option String) (hmode : mc.stats.mode ≠ some mode) :
    load_and_seed mode m (some (stateJson mc ts lid)) = load_and_seed mode m none := by
  have hmm : modeMatches (stateJson mc ts lid) mode = false := by
    unfold modeMatches
    rw [jget_stateJson_mode]
    cases hmd : mc.stats.mode with
    | none => simp [encodeOptStr]
    | some m2 =>
      have hne : m2 ≠ mode := by
        intro hcontra
        exact hmode (by rw [hmd, hcontra])
      simp [encodeOptStr, hne]
  simp only [load_and_seed, Option.getD_some, jsonTruthy_stateJson, hmm,
    Bool.true_and, Bool.false_and, if_false, Bool.and_false]
  simp [jsonTruthy]

/-- With no saved checkpoint, the run starts from the manager as it is,
with only the mode field of the stats set. -/
theorem load_and_seed_none (mode : String) (m : Manager) :
    load_and_seed mode m none
      = { m with stats := { m.stats with mode := some mode } } := by
  simp [load_and_seed, jsonTruthy]

/-! ## Controlled unfoldings of the batch loop -/

theorem process_batch_nil (oracle : Oracle) (fuel : Nat) (lid : Option String)
    (mode : String) (s : Sys) : process_batch oracle fuel lid mode [] s = some s := rfl

theorem process_batch_cons (oracle : Oracle) (fuel : Nat) (lid : Option String)
    (mode : String) (u : User) (rest : List User) (s : Sys)
    (hss : s.mgr.should_stop = false) (hip : s.mgr.is_paused = false) :
    process_batch oracle fuel lid mode (u :: rest) s
      = match process_item oracle fuel lid mode u s with
        | none => none
        | some s1 => process_batch oracle fuel lid mode rest s1 := by
  rw [process_batch, if_neg (by simp [hss, hip])]

theorem process_item_add_unfold (oracle : Oracle) (fuel : Nat) (lid : Option String)
    (u : User) (s : Sys) (huid : (uidOf u == "") = false) :
    process_item oracle fuel lid "add_to_list" u s
      = some (markProcessed (uidOf u) (add_to_list oracle (uidOf u) lid s)) := by
  unfold process_item
  rw [if_neg (by rw [huid]; exact Bool.false_ne_true)]
  rfl

theorem process_item_unfollow_unfold (oracle : Oracle) (fuel : Nat) (lid : Option String)
    (u : User) (s : Sys) (huid : (uidOf u == "") = false) :
    process_item oracle fuel lid "unfollow" u s
      = match unfollow_user oracle fuel (uidOf u) s with
        | none => none
        | some (s3, none) => some (markProcessed (uidOf u) s3)
        | some (s3, some e) =>
            if e = CallResult.tooManyRequests then some (sleepS 900 s3)
            else some (modStats (fun st => { st with failed := st.failed + 1 }) s3) := by
  unfold process_item
  rw [if_neg (by rw [huid]; exact Bool.false_ne_true)]
  rfl

theorem process_item_both_unfold (oracle : Oracle) (fuel : Nat) (lid : Option String)
    (u : User) (s : Sys) (huid : (uidOf u == "") = false) :
    process_item oracle fuel lid "both" u s
      = match unfollow_user oracle fuel (uidOf u)
            (sleepS 2 (add_to_list oracle (uidOf u) lid s)) with
        | none => none
        | some (s3, none) => some (markProcessed (uidOf u) s3)
        | some (s3, some e) =>
            if e = CallResult.tooManyRequests then some (sleepS 900 s3)
            else some (modStats (fun st => { st with failed := st.failed + 1 }) s3) := by
  unfold process_item
  rw [if_neg (by rw [huid]; exact Bool.false_ne_true)]
  rfl

/-! ## Concrete fixtures -/

/-- A remote side on which every call succeeds. -/
def oracleAllOk : Oracle := ⟨fun _ => CallResult.ok, fun _ => CallResult.ok⟩

/-- A remote side on which every unfollow call fails with NotFound. -/
def oracleRemoveNotFound : Oracle := ⟨fun _ => CallResult.ok, fun _ => CallResult.notFound⟩

/-- A remote side that reports quota exceeded when unfollowing id a. -/
def oracleQuotaOnA : Oracle :=
  ⟨fun _ => CallResult.ok,
   fun u => if u == "a" then CallResult.tooManyRequests else CallResult.ok⟩

def userA : User := ⟨some "a"⟩

def userB : User := ⟨some "b"⟩

def userC : User := ⟨some "c"⟩

/-- A single fetched page holding a, b, c with no continuation token. -/
def pagesFinalOnly : List Page := [⟨[userA, userB, userC], none⟩]

/-- A page holding id a twice with a truthy continuation token, followed by
an empty page. -/
def pagesDupInPage : List Page := [⟨[userA, userA], some "c1"⟩, ⟨[], none⟩]

theorem jmode_encode (o : Option String) : jmode (some (encodeOptStr o)) = some o := by
  cases o <;> rfl

/-! ## Claim theorems -/

/-- C1 (code bug): over a single page of three fresh entities a, b, c whose
response carries no continuation token, in mode both with every remote call
succeeding, process_following breaks out of the fetch loop before
_process_batch runs (the cursor check at line 152 of manager.py precedes
the processing at line 159), so the run ends with processed = 0,
added_to_list = 0, unfollowed = 0 and an empty processed set: the final
page is silently dropped, contradicting the claimed final stats
processed = 3, added = 3, removed = 3, failed = 0. -/
theorem C1_final_page_never_processed :
    (process_following oracleAllOk 100 pagesFinalOnly (some "L") "both" sysInit).map
      (fun r => ((r.1.mgr.stats.processed, r.1.mgr.stats.added_to_list,
                  r.1.mgr.stats.unfollowed, r.1.mgr.stats.failed),
                 decide (r.1.mgr.processed_users = ∅), r.2))
      = some ((0, 0, 0, 0), true, none) := by decide

/-- C2 counterexample: in mode unfollow, an item whose remove call raises
NotFound is handed to the processor (one unfollow call is traced) yet its
id is not added to processed_users; it is counted in failed. -/
theorem C2_counterexample :
    (process_batch oracleRemoveNotFound 10 none "unfollow" [userA] sysInit).map
      (fun s => (decide ("a" ∈ s.mgr.processed_users), s.mgr.stats.failed,
                 s.trace.count (Event.unfollowCall "a")))
      = some (false, 1, 1) := by decide

/-- C3 counterexample: an id occurring twice within one fetched page is
processed twice (two unfollow calls, stats.processed = 2) even though it is
a single entity; processed_users still holds it once. -/
theorem C3_counterexample :
    (process_following oracleAllOk 100 pagesDupInPage none "unfollow" sysInit).map
      (fun r => (r.1.mgr.stats.processed, r.1.trace.count (Event.unfollowCall "a"),
                 decide (r.1.mgr.processed_users = {"a"})))
      = some (2, 2, true) := by decide

/-- C3 (amended): an id already present in processed_users when the fetch
loop runs — in particular one seeded from the checkpoint or processed on an
earlier page — stays in processed_users and is never again the subject of
an add or unfollow call; processed_users is a set, so no id occurs in it
twice.  (An id occurring twice within a single page is still processed
twice, as the counterexample shows.) -/
theorem C3_no_recall_of_processed (oracle : Oracle) (fuel : Nat) (lid : Option String)
    (mode : String) (x : String) (pages : List Page) (fc : Nat) (s sf : Sys)
    (hx : x ∈ s.mgr.processed_users)
    (h : fetch_loop oracle fuel lid mode pages fc s = some sf) :
    x ∈ sf.mgr.processed_users
    ∧ ∃ t, sf.trace = s.trace ++ t
        ∧ (∀ l2, Event.addCall l2 x ∉ t) ∧ Event.unfollowCall x ∉ t :=
  fetch_loop_no_recall oracle fuel lid mode x pages fc s sf hx h

/-- A start state whose processed set already holds id a. -/
def sysWithA : Sys :=
  { mgr := { Manager.init with processed_users := {"a"} },
    now := 0, store := none, trace := [] }

def c3wRun : Option Sys := fetch_loop oracleAllOk 20 none "unfollow" pagesDupInPage 0 sysWithA

theorem C3_witness :
    "a" ∈ (c3wRun.getD sysInit).mgr.processed_users
    ∧ ∃ t, (c3wRun.getD sysInit).trace = sysWithA.trace ++ t
        ∧ (∀ l2, Event.addCall l2 "a" ∉ t) ∧ Event.unfollowCall "a" ∉ t :=
  C3_no_recall_of_processed oracleAllOk 20 none "unfollow" "a" pagesDupInPage 0 sysWithA
    (c3wRun.getD sysInit) (by decide) (by rfl)

/-- The spec example: limit 2, window 10 s; a window opened by a check at
t = 0, then two recorded calls. -/
def c4AfterTwoRecords : RateLimit :=
  increment (increment
    (check_limit { limit := 2, window := 10, current := 0, reset_time := 0 } 0).2)

/-- C4: for a registered operation (positive limit), check_limit returns
false iff the count has reached the limit within the current window; a
window whose reset time has passed is first reset (count 0, reset one
window from now), so the call is then admitted regardless of the prior
count.  The spec example holds: after two recorded calls at t = 0 in a
window of 10 s, the check is false at t = 5 and true at t = 11. -/
theorem C4_check_limit (rl : RateLimit) (now : Nat) (hpos : 0 < rl.limit) :
    ((check_limit rl now).1 = false ↔ (now < rl.reset_time ∧ rl.limit ≤ rl.current))
  ∧ (rl.reset_time ≤ now →
      (check_limit rl now).1 = true
      ∧ (check_limit rl now).2 = { rl with current := 0, reset_time := now + rl.window })
  ∧ ((check_limit c4AfterTwoRecords 5).1 = false
      ∧ (check_limit c4AfterTwoRecords 11).1 = true) := by
  refine ⟨?_, ?_, by decide⟩
  · unfold check_limit
    split <;> simp only [decide_eq_false_iff_not, Nat.not_lt] <;> omega
  · intro hle
    unfold check_limit
    rw [if_pos hle]
    exact ⟨by simp [hpos], rfl⟩

def rlUnfollowInit : RateLimit := { limit := 187, window := 900, current := 0, reset_time := 0 }

theorem C4_witness :
    (((check_limit rlUnfollowInit 3).1 = false
        ↔ (3 < rlUnfollowInit.reset_time ∧ rlUnfollowInit.limit ≤ rlUnfollowInit.current))
    ∧ (rlUnfollowInit.reset_time ≤ 3 →
        (check_limit rlUnfollowInit 3).1 = true
        ∧ (check_limit rlUnfollowInit 3).2
            = { rlUnfollowInit with current := 0, reset_time := 3 + rlUnfollowInit.window })
    ∧ ((check_limit c4AfterTwoRecords 5).1 = false
        ∧ (check_limit c4AfterTwoRecords 11).1 = true)) :=
  C4_check_limit rlUnfollowInit 3 (by decide)

/-- C5 counterexample: in mode unfollow over items a then b, with the
remote reporting quota exceeded for a, the run makes exactly one unfollow
call for a (it is never retried), counts no failure, leaves a out of
processed_users, sleeps 900 s once, and moves on to process b. -/
theorem C5_counterexample :
    (process_batch oracleQuotaOnA 10 none "unfollow" [userA, userB] sysInit).map
      (fun s => (s.trace.count (Event.unfollowCall "a"), s.mgr.stats.failed,
                 decide ("a" ∈ s.mgr.processed_users), s.trace.count (Event.sleep 900),
                 decide (s.mgr.processed_users = {"b"})))
      = some (1, 0, false, 1, true) := by decide

/-- C6: at run start (a fresh manager), a saved checkpoint whose mode
matches the requested mode seeds processed_users and stats from it; a
checkpoint whose mode differs behaves exactly like no checkpoint
(nothing merged, no error), and with no checkpoint the run starts with an
empty processed set and zeroed stats carrying the requested mode. -/
theorem C6_resume_seeding (mode : String) (mc : Manager) (ts : Nat) (lid : Option String) :
    (mc.stats.mode = some mode →
       load_and_seed mode Manager.init (some (stateJson mc ts lid))
         = { Manager.init with
             processed_users := mc.processed_users,
             stats := { mc.stats with mode := some mode } })
  ∧ (mc.stats.mode ≠ some mode →
       load_and_seed mode Manager.init (some (stateJson mc ts lid))
         = load_and_seed mode Manager.init none)
  ∧ load_and_seed mode Manager.init none
      = { Manager.init with stats := { Stats.init with mode := some mode } } :=
  ⟨fun h => load_and_seed_match mode Manager.init mc ts lid h,
   fun h => load_and_seed_mismatch mode Manager.init mc ts lid h,
   load_and_seed_none mode Manager.init⟩

/-- A checkpointed manager whose saved mode is both. -/
def mcMatch : Manager :=
  { Manager.init with
    processed_users := {"x"},
    stats := { Stats.init with processed := 1, mode := some "both" } }

/-- A checkpointed manager whose saved mode is unfollow. -/
def mcOther : Manager :=
  { Manager.init with
    processed_users := {"x"},
    stats := { Stats.init with processed := 1, mode := some "unfollow" } }

theorem C6_witness :
    load_and_seed "both" Manager.init (some (stateJson mcMatch 7 (some "L")))
      = { Manager.init with
          processed_users := mcMatch.processed_users,
          stats := { mcMatch.stats with mode := some "both" } }
  ∧ load_and_seed "both" Manager.init (some (stateJson mcOther 7 (some "L")))
      = load_and_seed "both" Manager.init none :=
  ⟨(C6_resume_seeding "both" mcMatch 7 (some "L")).1 (by decide),
   (C6_resume_seeding "both" mcOther 7 (some "L")).2.1 (by decide)⟩

/-- C7: the record written by save_progress reads back losslessly: the
processed_users list decodes to the same set of ids, the stats field
decodes to the same stats, and the mode field decodes to the same mode. -/
theorem C7_checkpoint_roundtrip (m : Manager) (ts : Nat) (lid : Option String) :
    (jStrList (jget (stateJson m ts lid) "processed_users")).toFinset = m.processed_users
  ∧ (jget (stateJson m ts lid) "stats").bind Stats.fromJson = some m.stats
  ∧ jmode (jget (stateJson m ts lid) "mode") = some m.stats.mode := by
  refine ⟨?_, ?_, ?_⟩
  · rw [jget_stateJson_processed, jStrList_roundtrip, processedList_toFinset]
  · rw [jget_stateJson_stats]
    simp [Stats.fromJson_toJson]
  · rw [jget_stateJson_mode, jmode_encode]

/-- C9: an invalid mode, or a mode that requires a list id called without a
truthy one, makes process_following raise at once: the returned state is
the input state unchanged (same manager, stats, store and trace), so no
remote call, statistics update or checkpoint write has happened. -/
theorem C9_config_fail_fast (oracle : Oracle) (fuel : Nat) (pages : List Page)
    (lid : Option String) (mode : String) (s : Sys)
    (h : (mode ≠ "add_to_list" ∧ mode ≠ "unfollow" ∧ mode ≠ "both")
       ∨ ((mode = "add_to_list" ∨ mode = "both") ∧ optStrTruthy lid = false)) :
    ∃ err, process_following oracle fuel pages lid mode s = some (s, some err) := by
  rcases h with ⟨h1, h2, h3⟩ | ⟨hm, hl⟩
  · refine ⟨ConfigError.invalidMode, ?_⟩
    have hc1 : (!(mode == "add_to_list" || mode == "unfollow" || mode == "both")) = true := by
      simp [h1, h2, h3]
    unfold process_following
    rw [hc1]
    simp
  · refine ⟨ConfigError.listIdRequired, ?_⟩
    have hc1 : (!(mode == "add_to_list" || mode == "unfollow" || mode == "both")) = false := by
      rcases hm with hm | hm <;> subst hm <;> rfl
    have hc2 : ((mode == "add_to_list" || mode == "both") && !(optStrTruthy lid)) = true := by
      rcases hm with hm | hm <;> subst hm <;> simp [hl]
    unfold process_following
    rw [hc1, hc2]
    simp

theorem C9_witness :
    ∃ err, process_following oracleAllOk 5 [] none "bogus" sysInit
      = some (sysInit, some err) :=
  C9_config_fail_fast oracleAllOk 5 [] none "bogus" sysInit
    (Or.inl (by refine ⟨?_, ?_, ?_⟩ <;> decide))

/-- C10: stop and pause both save progress with no list_id argument, so the
record they write to the checkpoint store has no list_id key at all — any
list id present in a previously saved checkpoint is overwritten away. -/
theorem C10_stop_pause_drop_list_id (s : Sys) :
    (∃ j, (stop s).store = some j ∧ jget j "list_id" = none)
  ∧ (∃ j, (pause s).store = some j ∧ jget j "list_id" = none)
  ∧ (stop s).mgr.should_stop = true ∧ (pause s).mgr.is_paused = true :=
  ⟨⟨_, rfl, rfl⟩, ⟨_, rfl, rfl⟩, rfl, rfl⟩

/-- C2 (amended): after processing returns for an entity handed to the
item processor, its id is in processed_users iff no exception escaped the
item: always in mode add_to_list (add failures are caught inside
_add_to_list and counted), and in the remove modes exactly when the remove
call succeeded.  A failing sub-operation is counted in stats.failed except
a quota-exceeded remove; a failed item, left out of processed_users, is
not marked processed and the batch moves on, though it may be handed to
the processor again if a later page returns it. -/
theorem C2_processed_membership (oracle : Oracle) (fuel : Nat) (lid : Option String)
    (mode : String) (u : User) (s sf : Sys)
    (hmode : mode = "add_to_list" ∨ mode = "unfollow" ∨ mode = "both")
    (hss : s.mgr.should_stop = false) (hip : s.mgr.is_paused = false)
    (huid : uidOf u ≠ "") (hmem : uidOf u ∉ s.mgr.processed_users)
    (hrun : process_batch oracle fuel lid mode [u] s = some sf) :
    (uidOf u ∈ sf.mgr.processed_users
       ↔ (mode = "add_to_list" ∨ oracle.unfollowResult (uidOf u) = CallResult.ok))
  ∧ ((mode = "unfollow" ∨ mode = "both") →
       oracle.unfollowResult (uidOf u) ≠ CallResult.ok →
       oracle.unfollowResult (uidOf u) ≠ CallResult.tooManyRequests →
       s.mgr.stats.failed + 1 ≤ sf.mgr.stats.failed)
  ∧ ((mode = "add_to_list" ∨ mode = "both") →
       oracle.addResult (uidOf u) ≠ CallResult.ok →
       s.mgr.stats.failed + 1 ≤ sf.mgr.stats.failed) := by
  have huidb : (uidOf u == "") = false := by
    simp only [beq_eq_false_iff_ne, ne_eq]
    exact huid
  rw [process_batch_cons oracle fuel lid mode u [] s hss hip] at hrun
  obtain ⟨haP, haSS, haIP, haST, haTR, haPR, haUF, haTO, haMO, haA, haF⟩ :=
    add_to_list_spec oracle (uidOf u) lid s
  rcases hmode with hm | hm | hm <;> subst hm
  · -- mode add_to_list
    rw [process_item_add_unfold oracle fuel lid u s huidb] at hrun
    dsimp only [] at hrun
    rw [process_batch_nil] at hrun
    cases hrun
    refine ⟨?_, ?_, ?_⟩
    · simp [markProcessed, modStats]
    · intro h
      rcases h with h | h <;> simp at h
    · intro _ hadd
      have : (markProcessed (uidOf u)
          (add_to_list oracle (uidOf u) lid s)).mgr.stats.failed
          = s.mgr.stats.failed + 1 := by
        simp [markProcessed, modStats, haF, hadd]
      omega
  · -- mode unfollow
    rw [process_item_unfollow_unfold oracle fuel lid u s huidb] at hrun
    cases hu2 : unfollow_user oracle fuel (uidOf u) s with
    | none => rw [hu2] at hrun; simp at hrun
    | some r =>
      obtain ⟨s3, e?⟩ := r
      rw [hu2] at hrun
      obtain ⟨hp3, _, _, hpr3, hf3, _, _, _, _, _, he3, _⟩ :=
        unfollow_user_some _ _ _ _ _ _ hu2
      by_cases hok : oracle.unfollowResult (uidOf u) = CallResult.ok
      · rw [if_pos hok] at he3
        subst he3
        dsimp only [] at hrun
        rw [process_batch_nil] at hrun
        cases hrun
        refine ⟨?_, ?_, ?_⟩
        · simp [markProcessed, modStats, hok]
        · intro _ hne
          exact absurd hok hne
        · intro h
          rcases h with h | h <;> simp at h
      · rw [if_neg hok] at he3
        subst he3
        dsimp only [] at hrun
        by_cases htm : oracle.unfollowResult (uidOf u) = CallResult.tooManyRequests
        · rw [if_pos htm] at hrun
          dsimp only [] at hrun
          rw [process_batch_nil] at hrun
          cases hrun
          refine ⟨?_, ?_, ?_⟩
          · simp [sleepS, hp3, hmem, hok]
          · intro _ _ hnotm
            exact absurd htm hnotm
          · intro h
            rcases h with h | h <;> simp at h
        · rw [if_neg htm] at hrun
          dsimp only [] at hrun
          rw [process_batch_nil] at hrun
          cases hrun
          refine ⟨?_, ?_, ?_⟩
          · simp [modStats, hp3, hmem, hok]
          · intro _ _ _
            have : (modStats (fun st => { st with failed := st.failed + 1 })
                s3).mgr.stats.failed = s.mgr.stats.failed + 1 := by
              simp [modStats, hf3]
            omega
          · intro h
            rcases h with h | h <;> simp at h
  · -- mode both
    rw [process_item_both_unfold oracle fuel lid u s huidb] at hrun
    have hPreP : (sleepS 2 (add_to_list oracle (uidOf u) lid s)).mgr.processed_users
        = s.mgr.processed_users := by simp [sleepS, haP]
    have hPreF : (sleepS 2 (add_to_list oracle (uidOf u) lid s)).mgr.stats.failed
        = s.mgr.stats.failed
          + (if oracle.addResult (uidOf u) = CallResult.ok then 0 else 1) := by
      simp [sleepS, haF]
    cases hu2 : unfollow_user oracle fuel (uidOf u)
        (sleepS 2 (add_to_list oracle (uidOf u) lid s)) with
    | none => rw [hu2] at hrun; simp at hrun
    | some r =>
      obtain ⟨s3, e?⟩ := r
      rw [hu2] at hrun
      obtain ⟨hp3, _, _, hpr3, hf3, _, _, _, _, _, he3, _⟩ :=
        unfollow_user_some _ _ _ _ _ _ hu2
      rw [hPreP] at hp3
      rw [hPreF] at hf3
      by_cases hok : oracle.unfollowResult (uidOf u) = CallResult.ok
      · rw [if_pos hok] at he3
        subst he3
        dsimp only [] at hrun
        rw [process_batch_nil] at hrun
        cases hrun
        refine ⟨?_, ?_, ?_⟩
        · simp [markProcessed, modStats, hok]
        · intro _ hne
          exact absurd hok hne
        · intro _ hadd
          have : (markProcessed (uidOf u) s3).mgr.stats.failed
              = s.mgr.stats.failed + 1 := by
            simp [markProcessed, modStats, hf3, hadd]
          omega
      · rw [if_neg hok] at he3
        subst he3
        dsimp only [] at hrun
        by_cases htm : oracle.unfollowResult (uidOf u) = CallResult.tooManyRequests
        · rw [if_pos htm] at hrun
          dsimp only [] at hrun
          rw [process_batch_nil] at hrun
          cases hrun
          refine ⟨?_, ?_, ?_⟩
          · simp [sleepS, hp3, hmem, hok]
          · intro _ _ hnotm
            exact absurd htm hnotm
          · intro _ hadd
            have : (sleepS 900 s3).mgr.stats.failed
                = s.mgr.stats.failed + 1 := by
              simp [sleepS, hf3, hadd]
            omega
        · rw [if_neg htm] at hrun
          dsimp only [] at hrun
          rw [process_batch_nil] at hrun
          cases hrun
          refine ⟨?_, ?_, ?_⟩
          · simp [modStats, hp3, hmem, hok]
          · intro _ _ _
            have : (modStats (fun st => { st with failed := st.failed + 1 })
                s3).mgr.stats.failed
                = s.mgr.stats.failed
                  + (if oracle.addResult (uidOf u) = CallResult.ok then 0 else 1) + 1 := by
              simp [modStats, hf3]
            split at this <;> omega
          · intro _ hadd
            have : (modStats (fun st => { st with failed := st.failed + 1 })
                s3).mgr.stats.failed = s.mgr.stats.failed + 1 + 1 := by
              simp [modStats, hf3, hadd]
            omega

def c2wRun : Sys :=
  (process_batch oracleAllOk 10 none "unfollow" [userA] sysInit).getD sysInit

theorem C2_witness :
    (("a" : String) ∈ c2wRun.mgr.processed_users
       ↔ (("unfollow" : String) = "add_to_list"
            ∨ oracleAllOk.unfollowResult "a" = CallResult.ok))
  ∧ ((("unfollow" : String) = "unfollow" ∨ ("unfollow" : String) = "both") →
       oracleAllOk.unfollowResult "a" ≠ CallResult.ok →
       oracleAllOk.unfollowResult "a" ≠ CallResult.tooManyRequests →
       sysInit.mgr.stats.failed + 1 ≤ c2wRun.mgr.stats.failed)
  ∧ ((("unfollow" : String) = "add_to_list" ∨ ("unfollow" : String) = "both") →
       oracleAllOk.addResult "a" ≠ CallResult.ok →
       sysInit.mgr.stats.failed + 1 ≤ c2wRun.mgr.stats.failed) :=
  C2_processed_membership oracleAllOk 10 none "unfollow" userA sysInit c2wRun
    (Or.inr (Or.inl rfl)) rfl rfl (by decide) (by decide) (by rfl)

/-- C5 (amended): when the remote reports quota exceeded on the remove
call despite local admission, the processor makes that one unfollow call,
sleeps a full window (900 s) before anything further, counts no per-item
failure and does not mark the item processed — but it does NOT retry the
item: the batch resumes with the remaining items only, so the skipped item
is only seen again if a later page returns it. -/
theorem C5_quota_backoff_skips_item (oracle : Oracle) (fuel : Nat) (lid : Option String)
    (mode : String) (u : User) (rest : List User) (s sf : Sys)
    (hmode : mode = "unfollow" ∨ mode = "both")
    (hss : s.mgr.should_stop = false) (hip : s.mgr.is_paused = false)
    (huid : uidOf u ≠ "")
    (htm : oracle.unfollowResult (uidOf u) = CallResult.tooManyRequests)
    (haddok : mode = "both" → oracle.addResult (uidOf u) = CallResult.ok)
    (hrun : process_batch oracle fuel lid mode (u :: rest) s = some sf) :
    ∃ smid t1, process_batch oracle fuel lid mode rest smid = some sf
      ∧ smid.mgr.stats.failed = s.mgr.stats.failed
      ∧ smid.mgr.processed_users = s.mgr.processed_users
      ∧ smid.mgr.stats.processed = s.mgr.stats.processed
      ∧ smid.trace = s.trace ++ t1 ++ [Event.unfollowCall (uidOf u), Event.sleep 900]
      ∧ Event.unfollowCall (uidOf u) ∉ t1 := by
  have huidb : (uidOf u == "") = false := by
    simp only [beq_eq_false_iff_ne, ne_eq]
    exact huid
  rw [process_batch_cons oracle fuel lid mode u rest s hss hip] at hrun
  obtain ⟨haP, haSS, haIP, haST, haTR, haPR, haUF, haTO, haMO, haA, haF⟩ :=
    add_to_list_spec oracle (uidOf u) lid s
  rcases hmode with hm | hm <;> subst hm
  · rw [process_item_unfollow_unfold oracle fuel lid u s huidb] at hrun
    cases hu2 : unfollow_user oracle fuel (uidOf u) s with
    | none => rw [hu2] at hrun; simp at hrun
    | some r =>
      obtain ⟨s3, e?⟩ := r
      rw [hu2] at hrun
      obtain ⟨hp3, _, _, hpr3, hf3, _, _, _, _, ⟨t, htr3, hsl⟩, he3, _⟩ :=
        unfollow_user_some _ _ _ _ _ _ hu2
      rw [htm] at he3
      rw [if_neg (by intro hcon; cases hcon)] at he3
      subst he3
      dsimp only [] at hrun
      rw [if_pos rfl] at hrun
      dsimp only [] at hrun
      refine ⟨sleepS 900 s3, t, hrun, ?_, ?_, ?_, ?_, ?_⟩
      · simp [sleepS, hf3]
      · simp [sleepS, hp3]
      · simp [sleepS, hpr3]
      · simp [sleepS, htr3]
      · intro hc
        obtain ⟨n, hn⟩ := hsl _ hc
        cases hn
  · rw [process_item_both_unfold oracle fuel lid u s huidb] at hrun
    have hPreT : (sleepS 2 (add_to_list oracle (uidOf u) lid s)).trace
        = s.trace ++ [Event.sleep 2, Event.addCall lid (uidOf u), Event.sleep 2] := by
      simp [sleepS, haTR]
    cases hu2 : unfollow_user oracle fuel (uidOf u)
        (sleepS 2 (add_to_list oracle (uidOf u) lid s)) with
    | none => rw [hu2] at hrun; simp at hrun
    | some r =>
      obtain ⟨s3, e?⟩ := r
      rw [hu2] at hrun
      obtain ⟨hp3, _, _, hpr3, hf3, _, _, _, _, ⟨t, htr3, hsl⟩, he3, _⟩ :=
        unfollow_user_some _ _ _ _ _ _ hu2
      rw [htm] at he3
      rw [if_neg (by intro hcon; cases hcon)] at he3
      subst he3
      dsimp only [] at hrun
      rw [if_pos rfl] at hrun
      dsimp only [] at hrun
      rw [hPreT] at htr3
      refine ⟨sleepS 900 s3,
        [Event.sleep 2, Event.addCall lid (uidOf u), Event.sleep 2] ++ t,
        hrun, ?_, ?_, ?_, ?_, ?_⟩
      · simp [sleepS, hf3, haF, haddok rfl]
      · simp [sleepS, hp3, haP]
      · simp [sleepS, hpr3, haPR]
      · simp [sleepS, htr3]
      · intro hc
        rcases List.mem_append.mp hc with hc | hc
        · rcases List.mem_cons.mp hc with hc | hc
          · cases hc
          · rcases List.mem_cons.mp hc with hc | hc
            · cases hc
            · rcases List.mem_cons.mp hc with hc | hc
              · cases hc
              · cases hc
        · obtain ⟨n, hn⟩ := hsl _ hc
          cases hn

def c5wRun : Sys :=
  (process_batch oracleQuotaOnA 10 none "unfollow" [userA, userB] sysInit).getD sysInit

theorem C5_witness :
    ∃ smid t1, process_batch oracleQuotaOnA 10 none "unfollow" [userB] smid = some c5wRun
      ∧ smid.mgr.stats.failed = sysInit.mgr.stats.failed
      ∧ smid.mgr.processed_users = sysInit.mgr.processed_users
      ∧ smid.mgr.stats.processed = sysInit.mgr.stats.processed
      ∧ smid.trace = sysInit.trace ++ t1 ++ [Event.unfollowCall "a", Event.sleep 900]
      ∧ Event.unfollowCall "a" ∉ t1 :=
  C5_quota_backoff_skips_item oracleQuotaOnA 10 none "unfollow" userA [userB] sysInit
    c5wRun (Or.inl rfl) rfl rfl (by decide) (by decide)
    (fun h => absurd h (by decide)) (by rfl)

/-- C8: in mode both, for every item — whatever the outcome of its add
call, success or any failure — the add call is issued before the remove
call, and the remove is still attempted when the add failed: the trace
always reads cooldown, add call, cooldown, quota-polling sleeps, unfollow
call (add failures are swallowed inside _add_to_list, so control always
reaches the remove). -/
theorem C8_add_before_remove (oracle : Oracle) (fuel : Nat) (lid : Option String)
    (u : User) (s sf : Sys)
    (hss : s.mgr.should_stop = false) (hip : s.mgr.is_paused = false)
    (huid : uidOf u ≠ "")
    (hrun : process_batch oracle fuel lid "both" [u] s = some sf) :
    ∃ t1 t2, sf.trace
        = s.trace ++ [Event.sleep 2, Event.addCall lid (uidOf u), Event.sleep 2]
            ++ t1 ++ [Event.unfollowCall (uidOf u)] ++ t2
      ∧ onlySleeps t1 := by
  have huidb : (uidOf u == "") = false := by
    simp only [beq_eq_false_iff_ne, ne_eq]
    exact huid
  rw [process_batch_cons oracle fuel lid "both" u [] s hss hip] at hrun
  rw [process_item_both_unfold oracle fuel lid u s huidb] at hrun
  obtain ⟨haP, haSS, haIP, haST, haTR, _⟩ := add_to_list_spec oracle (uidOf u) lid s
  have hPreT : (sleepS 2 (add_to_list oracle (uidOf u) lid s)).trace
      = s.trace ++ [Event.sleep 2, Event.addCall lid (uidOf u), Event.sleep 2] := by
    simp [sleepS, haTR]
  cases hu2 : unfollow_user oracle fuel (uidOf u)
      (sleepS 2 (add_to_list oracle (uidOf u) lid s)) with
  | none => rw [hu2] at hrun; simp at hrun
  | some r =>
    obtain ⟨s3, e?⟩ := r
    rw [hu2] at hrun
    obtain ⟨_, _, _, _, _, _, _, _, _, ⟨t, htr3, hsl⟩, he3, _⟩ :=
      unfollow_user_some _ _ _ _ _ _ hu2
    rw [hPreT] at htr3
    by_cases hok : oracle.unfollowResult (uidOf u) = CallResult.ok
    · rw [if_pos hok] at he3
      subst he3
      dsimp only [] at hrun
      rw [process_batch_nil] at hrun
      cases hrun
      exact ⟨t, [], by simp [markProcessed, modStats, htr3], hsl⟩
    · rw [if_neg hok] at he3
      subst he3
      dsimp only [] at hrun
      by_cases htm : oracle.unfollowResult (uidOf u) = CallResult.tooManyRequests
      · rw [if_pos htm] at hrun
        dsimp only [] at hrun
        rw [process_batch_nil] at hrun
        cases hrun
        exact ⟨t, [Event.sleep 900], by simp [sleepS, htr3], hsl⟩
      · rw [if_neg htm] at hrun
        dsimp only [] at hrun
        rw [process_batch_nil] at hrun
        cases hrun
        exact ⟨t, [], by simp [modStats, htr3], hsl⟩

/-- A remote side whose add calls fail with NotFound and whose unfollow
calls succeed. -/
def oracleAddFails : Oracle := ⟨fun _ => CallResult.notFound, fun _ => CallResult.ok⟩

def c8wRun : Sys :=
  (process_batch oracleAddFails 10 (some "L") "both" [userA] sysInit).getD sysInit

theorem C8_witness :
    ∃ t1 t2, c8wRun.trace
        = sysInit.trace ++ [Event.sleep 2, Event.addCall (some "L") "a", Event.sleep 2]
            ++ t1 ++ [Event.unfollowCall "a"] ++ t2
      ∧ onlySleeps t1 :=
  C8_add_before_remove oracleAddFails 10 (some "L") userA sysInit c8wRun rfl rfl
    (by decide) (by rfl)

end BulkListManager
